import Mathlib

/-!
Verification of the core ledger engine of `BankSystemProject.py` (the
`Account`/`SavingsAccount`/`CurrentAccount`, `Customer` and `Bank` classes
and their JSON persistence) as a shallow embedding in Lean 4.

Modelling conventions:
* Python `float` amounts are modelled as `Rat` (exact arithmetic).
* Python dicts (`Bank._customers`, `Bank._accounts`) are modelled as
  association lists in insertion order; assigning to an existing key
  replaces the value in place, assigning a fresh key appends at the end —
  exactly the observable behaviour of a CPython dict.
* `str(uuid.uuid4())[:8]` and `datetime.datetime.now().isoformat()` are
  nondeterministic inputs; they are passed to the operations as explicit
  `account_number` / `timestamp` parameters.
* The JSON files are modelled structurally: `None` stands for a missing
  file (`FileNotFoundError`), `some l` for a file holding the list `l` of
  records in the shape produced by the `to_dict` methods.
* `str.isdigit` is modelled on ASCII digits (the ids exercised by the
  program are ASCII).
-/

namespace BankSys

/-- Python's `str.isdigit` restricted to ASCII: nonempty and all digits. -/
def strIsdigit (s : String) : Bool :=
  !s.isEmpty && s.toList.all (fun c => c.isDigit)

/-! ### Association lists modelling Python dicts -/

/-- `d.get(k)` on a dict represented as an association list. -/
def alistGet {α : Type} (m : List (String × α)) (k : String) : Option α :=
  match m with
  | [] => none
  | (k', v) :: rest => if k' = k then some v else alistGet rest k

/-- `k in d`. -/
def alistHas {α : Type} (m : List (String × α)) (k : String) : Bool :=
  (alistGet m k).isSome

/-- `d[k] = v`: replace in place if the key exists, otherwise append. -/
def alistInsert {α : Type} (m : List (String × α)) (k : String) (v : α) :
    List (String × α) :=
  match m with
  | [] => [(k, v)]
  | (k', v') :: rest =>
      if k' = k then (k, v) :: rest else (k', v') :: alistInsert rest k v

/-- `del d[k]`. -/
def alistErase {α : Type} (m : List (String × α)) (k : String) :
    List (String × α) :=
  match m with
  | [] => []
  | (k', v') :: rest =>
      if k' = k then alistErase rest k else (k', v') :: alistErase rest k

/-! ### Account (abstract base with the two concrete variants) -/

/-- The variant-specific payload of the two concrete `Account` subclasses. -/
inductive AccountVariant : Type where
  | savings (interest_rate : Rat)
  | current (overdraft_limit : Rat)
deriving DecidableEq, Repr

/-- One account object: the `Account` base fields plus the variant payload. -/
structure Account : Type where
  account_number : String
  account_holder_id : String
  balance : Rat
  variant : AccountVariant
deriving DecidableEq, Repr

/-- `SavingsAccount.__init__`: a negative `interest_rate` is silently
replaced by the default `0.01`. -/
def SavingsAccount.init (account_number account_holder_id : String)
    (initial_balance : Rat) (interest_rate : Rat) : Account :=
  { account_number, account_holder_id, balance := initial_balance,
    variant := .savings (if interest_rate ≥ 0 then interest_rate else 1/100) }

/-- `CurrentAccount.__init__`: a negative `overdraft_limit` is silently
replaced by the default `0.0`. -/
def CurrentAccount.init (account_number account_holder_id : String)
    (initial_balance : Rat) (overdraft_limit : Rat) : Account :=
  { account_number, account_holder_id, balance := initial_balance,
    variant := .current (if overdraft_limit ≥ 0 then overdraft_limit else 0) }

/-- `deposit` (identical in both subclasses): fails on `amount <= 0`,
otherwise adds `amount` to the balance. -/
def Account.deposit (a : Account) (amount : Rat) : Bool × Account :=
  if amount ≤ 0 then (false, a)
  else (true, { a with balance := a.balance + amount })

/-- `withdraw`: `SavingsAccount` fails on `amount <= 0 or amount > balance`;
`CurrentAccount` fails on `amount <= 0 or balance - amount < -overdraft_limit`. -/
def Account.withdraw (a : Account) (amount : Rat) : Bool × Account :=
  match a.variant with
  | .savings _ =>
      if amount ≤ 0 ∨ amount > a.balance then (false, a)
      else (true, { a with balance := a.balance - amount })
  | .current od =>
      if amount ≤ 0 ∨ a.balance - amount < -od then (false, a)
      else (true, { a with balance := a.balance - amount })

/-- `SavingsAccount.apply_interest` together with the `isinstance` dispatch
performed by `Bank.apply_all_interest`: a savings balance grows by
`balance * interest_rate`, a current account is untouched. -/
def Account.apply_interest (a : Account) : Account :=
  match a.variant with
  | .savings r => { a with balance := a.balance + a.balance * r }
  | .current _ => a

/-- The lower bound a withdrawal may never cross: `0` for Savings,
`-overdraft_limit` for Current. -/
abbrev Account.floor (a : Account) : Rat :=
  match a.variant with
  | .savings _ => 0
  | .current od => -od

/-- The balance respects the variant's floor. -/
abbrev Account.floor_ok (a : Account) : Prop := a.floor ≤ a.balance

/-! ### Customer -/

structure Customer : Type where
  customer_id : String
  name : String
  address : String
  account_numbers : List String
deriving DecidableEq, Repr

/-- `Customer.add_account_number`: idempotent append. -/
def Customer.add_account_number (c : Customer) (n : String) : Customer :=
  if n ∈ c.account_numbers then c
  else { c with account_numbers := c.account_numbers ++ [n] }

/-- `Customer.remove_account_number`: idempotent removal. -/
def Customer.remove_account_number (c : Customer) (n : String) : Customer :=
  { c with account_numbers := c.account_numbers.erase n }

/-! ### Serialized records (`to_dict` output / JSON file contents) -/

/-- One record of `customers.json`, the shape written by `Customer.to_dict`. -/
structure CustomerData : Type where
  customer_id : String
  name : String
  address : String
  account_numbers : List String
deriving DecidableEq, Repr

/-- One record of `accounts.json`, the shape written by the two `to_dict`
overrides (tag field `type` is `savings` or `current`). -/
inductive AccountData : Type where
  | savings (account_number : String) (balance : Rat)
      (account_holder_id : String) (interest_rate : Rat)
  | current (account_number : String) (balance : Rat)
      (account_holder_id : String) (overdraft_limit : Rat)
deriving DecidableEq, Repr

/-- `Customer.to_dict`. -/
def Customer.to_dict (c : Customer) : CustomerData :=
  { customer_id := c.customer_id, name := c.name, address := c.address,
    account_numbers := c.account_numbers }

/-- `SavingsAccount.to_dict` / `CurrentAccount.to_dict`. -/
def Account.to_dict (a : Account) : AccountData :=
  match a.variant with
  | .savings r => .savings a.account_number a.balance a.account_holder_id r
  | .current od => .current a.account_number a.balance a.account_holder_id od

/-! ### Transaction records -/

/-- One entry of `Bank._transaction_history` (and of `transactions.json`). -/
inductive TransactionRecord : Type where
  | deposit (account : String) (amount : Rat) (timestamp : String)
  | withdraw (account : String) (amount : Rat) (timestamp : String)
  | transfer (from_account to_account : String) (amount : Rat) (timestamp : String)
  | apply_interest (timestamp : String)
deriving DecidableEq, Repr

/-- The three files touched by `_save_data` / `_load_data`; `none` models a
missing file (`FileNotFoundError` on read). -/
structure SavedFiles : Type where
  customer_file : Option (List CustomerData)
  account_file : Option (List AccountData)
  transactions_file : Option (List TransactionRecord)
deriving DecidableEq, Repr

/-! ### Bank -/

/-- The in-memory state of a `Bank` object together with the current
contents of the three files it persists to. -/
structure Bank : Type where
  customers : List (String × Customer)
  accounts : List (String × Account)
  transaction_history : List TransactionRecord
  files : SavedFiles
deriving DecidableEq, Repr

/-- The file contents `_save_data` would write from the current state. -/
def Bank.save_image (b : Bank) : SavedFiles :=
  { customer_file := some (b.customers.map (fun p => p.2.to_dict)),
    account_file := some (b.accounts.map (fun p => p.2.to_dict)),
    transactions_file := some b.transaction_history }

/-- `Bank._save_data`: serialize all three collections to the files. -/
def Bank.save_data (b : Bank) : Bank :=
  { b with files := b.save_image }

/-- Reconstruction of one customer by `_load_data`: fresh `Customer`, then
`add_account_number` for each stored number. -/
def loadCustomer (cd : CustomerData) : Customer :=
  cd.account_numbers.foldl (fun c n => c.add_account_number n)
    { customer_id := cd.customer_id, name := cd.name, address := cd.address,
      account_numbers := [] }

/-- Reconstruction of one account by `_load_data`: dispatch on the `type`
tag into the subclass constructor (re-applying its clamping). -/
def loadAccount (ad : AccountData) : Account :=
  match ad with
  | .savings n bal h r => SavingsAccount.init n h bal r
  | .current n bal h od => CurrentAccount.init n h bal od

/-- `Bank.__init__` + `Bank._load_data`: read customers and accounts (a
missing file yields an empty dict), prune each customer's account numbers
to those present in the account dict, and start with an empty transaction
history (`transactions.json` is never read back). -/
def Bank.load (files : SavedFiles) : Bank :=
  let customers0 := (files.customer_file.getD []).foldl
    (fun m cd =>
      let c := loadCustomer cd
      alistInsert m c.customer_id c) []
  let accounts := (files.account_file.getD []).foldl
    (fun m ad =>
      let a := loadAccount ad
      alistInsert m a.account_number a) []
  let customers := customers0.map (fun p =>
    (p.1, { p.2 with
      account_numbers := p.2.account_numbers.filter (fun n => alistHas accounts n) }))
  { customers, accounts, transaction_history := [], files }

/-- `Bank.add_customer`. -/
def Bank.add_customer (b : Bank) (customer : Customer) : Bool × Bank :=
  if alistHas b.customers customer.customer_id then (false, b)
  else if customer.customer_id.length ≠ 9 ∨ strIsdigit customer.customer_id = false then
    (false, b)
  else
    let b' : Bank := { b with customers := alistInsert b.customers customer.customer_id customer }
    (true, b'.save_data)

/-- `Bank.remove_customer`. -/
def Bank.remove_customer (b : Bank) (customer_id : String) : Bool × Bank :=
  match alistGet b.customers customer_id with
  | none => (false, b)
  | some cust =>
      if cust.account_numbers ≠ [] then (false, b)
      else
        let b' : Bank := { b with customers := alistErase b.customers customer_id }
        (true, b'.save_data)

/-- The `**kwargs` of `Bank.create_account`: `kwargs.get('interest_rate', 0.01)`
and `kwargs.get('overdraft_limit', 0.0)`. -/
structure Kwargs : Type where
  interest_rate : Option Rat
  overdraft_limit : Option Rat
deriving DecidableEq, Repr

/-- `Bank.create_account`; `account_number` is the value produced by
`str(uuid.uuid4())[:8]` (no collision check is performed on it). -/
def Bank.create_account (b : Bank) (customer_id : String) (account_type : String)
    (initial_balance : Rat) (kwargs : Kwargs) (account_number : String) :
    Option Account × Bank :=
  match alistGet b.customers customer_id with
  | none => (none, b)
  | some customer =>
      let made : Option Account :=
        if account_type = "savings" then
          some (SavingsAccount.init account_number customer_id initial_balance
            (kwargs.interest_rate.getD (1/100)))
        else if account_type = "current" then
          some (CurrentAccount.init account_number customer_id initial_balance
            (kwargs.overdraft_limit.getD 0))
        else none
      match made with
      | none => (none, b)
      | some account =>
          let accounts := alistInsert b.accounts account_number account
          let customer' := customer.add_account_number account_number
          let customers := alistInsert b.customers customer_id customer'
          (some account, ({ b with accounts, customers } : Bank).save_data)

/-- `Bank.deposit`. -/
def Bank.deposit (b : Bank) (account_number : String) (amount : Rat)
    (timestamp : String) : Bool × Bank :=
  match alistGet b.accounts account_number with
  | none => (false, b)
  | some account =>
      let r := account.deposit amount
      if r.1 then
        let b' : Bank := { b with
          accounts := alistInsert b.accounts account_number r.2,
          transaction_history := b.transaction_history ++
            [.deposit account_number amount timestamp] }
        (true, b'.save_data)
      else (false, b)

/-- `Bank.withdraw`. -/
def Bank.withdraw (b : Bank) (account_number : String) (amount : Rat)
    (timestamp : String) : Bool × Bank :=
  match alistGet b.accounts account_number with
  | none => (false, b)
  | some account =>
      let r := account.withdraw amount
      if r.1 then
        let b' : Bank := { b with
          accounts := alistInsert b.accounts account_number r.2,
          transaction_history := b.transaction_history ++
            [.withdraw account_number amount timestamp] }
        (true, b'.save_data)
      else (false, b)

/-- `Bank.transfer_funds`. The Python objects `from_account`/`to_account`
alias the dict entries, so after the withdrawal is written back the deposit
acts on the current entry for `to_acc_num` (which is the withdrawn account
when the two numbers coincide), and the compensating deposit acts on the
current entry for `from_acc_num`. -/
def Bank.transfer_funds (b : Bank) (from_acc_num to_acc_num : String)
    (amount : Rat) (timestamp : String) : Bool × Bank :=
  match alistGet b.accounts from_acc_num, alistGet b.accounts to_acc_num with
  | some from_account, some to_account =>
      if amount ≤ 0 then (false, b)
      else
        let w := from_account.withdraw amount
        if w.1 then
          let accounts1 := alistInsert b.accounts from_acc_num w.2
          let to_now := (alistGet accounts1 to_acc_num).getD to_account
          let d := to_now.deposit amount
          if d.1 then
            let accounts2 := alistInsert accounts1 to_acc_num d.2
            let b' : Bank := { b with
              accounts := accounts2,
              transaction_history := b.transaction_history ++
                [.transfer from_acc_num to_acc_num amount timestamp] }
            (true, b'.save_data)
          else
            let from_now := (alistGet accounts1 from_acc_num).getD w.2
            let comp := from_now.deposit amount
            (false, { b with accounts := alistInsert accounts1 from_acc_num comp.2 })
        else (false, b)
  | _, _ => (false, b)

/-- `Bank.apply_all_interest`. -/
def Bank.apply_all_interest (b : Bank) (timestamp : String) : Bank :=
  let b' : Bank := { b with
    accounts := b.accounts.map (fun p => (p.1, p.2.apply_interest)),
    transaction_history := b.transaction_history ++ [.apply_interest timestamp] }
  b'.save_data

/-! ### Structural invariants of reachable states -/

/-- Structural invariants every state reachable through the `Bank`
operations satisfies: dict keys match the stored objects' own ids, each
customer's account numbers are duplicate-free references to existing
accounts, keys are unique, and the clamped variant parameters are
nonnegative. -/
abbrev Bank.WF (b : Bank) : Prop :=
  (b.customers.map Prod.fst).Nodup ∧
  (b.accounts.map Prod.fst).Nodup ∧
  (∀ p ∈ b.customers, p.2.customer_id = p.1) ∧
  (∀ p ∈ b.accounts, p.2.account_number = p.1) ∧
  (∀ p ∈ b.customers, p.2.account_numbers.Nodup ∧
    ∀ n ∈ p.2.account_numbers, alistHas b.accounts n = true) ∧
  (∀ p ∈ b.accounts, 0 ≤ match p.2.variant with
    | .savings r => r
    | .current od => od)

/-! ### Concrete example states (used by witnesses and counterexamples) -/

/-- The file system of a first run: none of the three files exists. -/
def emptyFiles : SavedFiles :=
  { customer_file := none, account_file := none, transactions_file := none }

/-- A fresh customer with a valid 9-digit id and no accounts. -/
def cust1 : Customer :=
  { customer_id := "123456789", name := "A", address := "X", account_numbers := [] }

/-- The bank produced by a first run (`Bank()` with no files present). -/
def bank0 : Bank := Bank.load emptyFiles

/-- `bank0` after `add_customer(cust1)`. -/
def bank1 : Bank := (bank0.add_customer cust1).2

/-- `bank1` after creating a savings account `acc00001` with balance 100 and
interest rate 1/20. -/
def bank2 : Bank :=
  (bank1.create_account "123456789" "savings" 100 ⟨some (1/20), none⟩ "acc00001").2

/-- `bank2` after a successful `deposit('acc00001', 50)`: a reachable state
with a nonempty transaction history. -/
def bank3 : Bank := (bank2.deposit "acc00001" 50 "t1").2

/-! ### Association-list lemmas -/

theorem alistGet_insert_self {α : Type} (m : List (String × α)) (k : String) (v : α) :
    alistGet (alistInsert m k v) k = some v := by
  induction m with
  | nil => simp [alistGet, alistInsert]
  | cons p rest ih =>
      obtain ⟨k', v'⟩ := p
      by_cases h : k' = k
      · simp [alistGet, alistInsert, h]
      · simp [alistGet, alistInsert, h, ih]

theorem alistGet_insert_ne {α : Type} (m : List (String × α)) (k k' : String) (v : α)
    (h : k' ≠ k) : alistGet (alistInsert m k v) k' = alistGet m k' := by
  induction m with
  | nil => simp [alistGet, alistInsert, Ne.symm h]
  | cons p rest ih =>
      obtain ⟨k₀, v₀⟩ := p
      by_cases hk : k₀ = k
      · subst hk
        simp [alistGet, alistInsert, Ne.symm h]
      · simp [alistGet, alistInsert, hk, ih]

theorem alistGet_append_none {α : Type} (m m' : List (String × α)) (k : String)
    (h : alistGet m k = none) : alistGet (m ++ m') k = alistGet m' k := by
  induction m with
  | nil => simp
  | cons p rest ih =>
      obtain ⟨k₀, v₀⟩ := p
      by_cases hk : k₀ = k
      · simp [alistGet, hk] at h
      · simp only [alistGet, hk, if_false, List.cons_append] at h ⊢
        simp [alistGet, hk, ih h]

theorem alistInsert_of_get_none {α : Type} (m : List (String × α)) (k : String) (v : α)
    (h : alistGet m k = none) : alistInsert m k v = m ++ [(k, v)] := by
  induction m with
  | nil => simp [alistInsert]
  | cons p rest ih =>
      obtain ⟨k₀, v₀⟩ := p
      by_cases hk : k₀ = k
      · simp [alistGet, hk] at h
      · simp only [alistGet, hk, if_false] at h
        simp [alistInsert, hk, ih h]

theorem alistErase_append_of_none {α : Type} (m : List (String × α)) (k : String) (v : α)
    (h : alistGet m k = none) : alistErase (m ++ [(k, v)]) k = m := by
  induction m with
  | nil => simp [alistErase]
  | cons p rest ih =>
      obtain ⟨k₀, v₀⟩ := p
      by_cases hk : k₀ = k
      · simp [alistGet, hk] at h
      · simp only [alistGet, hk, if_false] at h
        simp [alistErase, hk, ih h]

theorem alistGet_map_val {α β : Type} (m : List (String × α)) (f : α → β) (k : String) :
    alistGet (m.map (fun p => (p.1, f p.2))) k = (alistGet m k).map f := by
  induction m with
  | nil => simp [alistGet]
  | cons p rest ih =>
      obtain ⟨k₀, v₀⟩ := p
      by_cases hk : k₀ = k
      · simp [alistGet, hk]
      · simp [alistGet, hk, ih]

/-! ### Account-level lemmas -/

theorem Account.deposit_of_pos (a : Account) (amt : Rat) (h : 0 < amt) :
    a.deposit amt = (true, { a with balance := a.balance + amt }) := by
  simp [Account.deposit, not_le.mpr h]

theorem Account.deposit_fst_iff (a : Account) (amt : Rat) :
    (a.deposit amt).1 = true ↔ 0 < amt := by
  by_cases h : amt ≤ 0 <;> simp [Account.deposit, h, lt_of_not_le, not_lt.mpr]

theorem Account.withdraw_of_false (a : Account) (amt : Rat)
    (h : (a.withdraw amt).1 = false) : (a.withdraw amt).2 = a := by
  obtain ⟨n, hid, bal, v⟩ := a
  rcases v with r | od
  · simp only [Account.withdraw] at h ⊢
    by_cases hc : amt ≤ 0 ∨ bal < amt
    · rw [if_pos hc]
    · rw [if_neg hc] at h; exact absurd h (by simp)
  · simp only [Account.withdraw] at h ⊢
    by_cases hc : amt ≤ 0 ∨ bal - amt < -od
    · rw [if_pos hc]
    · rw [if_neg hc] at h; exact absurd h (by simp)

theorem Account.withdraw_of_true (a : Account) (amt : Rat)
    (h : (a.withdraw amt).1 = true) :
    (a.withdraw amt).2 = { a with balance := a.balance - amt } := by
  obtain ⟨n, hid, bal, v⟩ := a
  rcases v with r | od
  · simp only [Account.withdraw] at h ⊢
    by_cases hc : amt ≤ 0 ∨ bal < amt
    · rw [if_pos hc] at h; exact absurd h (by simp)
    · rw [if_neg hc]
  · simp only [Account.withdraw] at h ⊢
    by_cases hc : amt ≤ 0 ∨ bal - amt < -od
    · rw [if_pos hc] at h; exact absurd h (by simp)
    · rw [if_neg hc]

/-! ### Claim C3 -/

/-- C3: for every account whose balance satisfies its variant floor
(0 for Savings, `-overdraft_limit` for Current) and any input amount,
`withdraw` never leaves the balance below the floor, and a failing
withdrawal leaves the account unchanged. -/
theorem claim_C3_withdraw_floor (a : Account) (amt : Rat) (h : a.floor_ok) :
    (a.withdraw amt).2.floor_ok ∧
      ((a.withdraw amt).1 = false → (a.withdraw amt).2 = a) := by
  refine ⟨?_, fun hf => Account.withdraw_of_false a amt hf⟩
  obtain ⟨n, hid, bal, v⟩ := a
  rcases v with r | od
  · simp only [Account.floor_ok, Account.floor] at h
    simp only [Account.withdraw]
    by_cases hc : amt ≤ 0 ∨ bal < amt
    · rw [if_pos hc]; exact h
    · rw [if_neg hc]
      push_neg at hc
      show (0 : Rat) ≤ bal - amt
      linarith [hc.2]
  · simp only [Account.floor_ok, Account.floor] at h
    simp only [Account.withdraw]
    by_cases hc : amt ≤ 0 ∨ bal - amt < -od
    · rw [if_pos hc]; exact h
    · rw [if_neg hc]
      push_neg at hc
      show -od ≤ bal - amt
      exact hc.2

/-- Witness for C3 at a savings account with balance 100 and an attempted
overdraw of 250. -/
theorem claim_C3_withdraw_floor_witness :
    ((SavingsAccount.init "n" "h" 100 (1/100)).withdraw 250).2.floor_ok ∧
      (((SavingsAccount.init "n" "h" 100 (1/100)).withdraw 250).1 = false →
        ((SavingsAccount.init "n" "h" 100 (1/100)).withdraw 250).2 =
          SavingsAccount.init "n" "h" 100 (1/100)) :=
  claim_C3_withdraw_floor (SavingsAccount.init "n" "h" 100 (1/100)) 250
    (by with_unfolding_all decide)

/-! ### Claim C4 -/

/-- C4: for an existing customer and a recognized kind, `create_account`
always succeeds; a negative variant parameter is silently replaced by the
default (0.01 interest rate, 0 overdraft limit) while a nonnegative one is
kept exactly. -/
theorem claim_C4_create_account_clamps (b : Bank) (cid num : String) (bal r od : Rat)
    (cust : Customer) (h : alistGet b.customers cid = some cust) :
    (∃ a, (b.create_account cid "savings" bal ⟨some r, none⟩ num).1 = some a ∧
        a.variant = .savings (if r ≥ 0 then r else 1/100)) ∧
    (∃ a, (b.create_account cid "current" bal ⟨none, some od⟩ num).1 = some a ∧
        a.variant = .current (if od ≥ 0 then od else 0)) := by
  constructor
  · refine ⟨SavingsAccount.init num cid bal r, ?_, rfl⟩
    simp [Bank.create_account, h]
  · refine ⟨CurrentAccount.init num cid bal od, ?_, rfl⟩
    simp [Bank.create_account, h]

/-- Witness for C4: creating accounts for `cust1` in `bank1` with negative
variant parameters. -/
theorem claim_C4_create_account_clamps_witness :
    (∃ a, (bank1.create_account "123456789" "savings" 0 ⟨some (-1), none⟩ "s1").1 = some a ∧
        a.variant = .savings (if (-1 : Rat) ≥ 0 then -1 else 1/100)) ∧
    (∃ a, (bank1.create_account "123456789" "current" 0 ⟨none, some (-5)⟩ "s1").1 = some a ∧
        a.variant = .current (if (-5 : Rat) ≥ 0 then -5 else 0)) :=
  claim_C4_create_account_clamps bank1 "123456789" "s1" 0 (-1) (-5) cust1
    (by with_unfolding_all decide)

/-! ### Claim C10 -/

/-- C10 (implicit): `create_account` performs no validation of the initial
balance: for an existing customer and either recognized kind it succeeds
for any balance, and the stored account's balance is exactly the given one,
including negative values below the variant's floor. -/
theorem claim_C10_unvalidated_balance (b : Bank) (cid num : String) (bal : Rat)
    (kw : Kwargs) (cust : Customer) (h : alistGet b.customers cid = some cust) :
    (∃ a, (b.create_account cid "savings" bal kw num).1 = some a ∧ a.balance = bal ∧
        alistGet (b.create_account cid "savings" bal kw num).2.accounts num = some a) ∧
    (∃ a, (b.create_account cid "current" bal kw num).1 = some a ∧ a.balance = bal ∧
        alistGet (b.create_account cid "current" bal kw num).2.accounts num = some a) := by
  constructor
  · refine ⟨SavingsAccount.init num cid bal (kw.interest_rate.getD (1/100)), ?_, rfl, ?_⟩ <;>
      simp [Bank.create_account, h, Bank.save_data, alistGet_insert_self]
  · refine ⟨CurrentAccount.init num cid bal (kw.overdraft_limit.getD 0), ?_, rfl, ?_⟩ <;>
      simp [Bank.create_account, h, Bank.save_data, alistGet_insert_self]

/-- Witness for C10: creating accounts with balance -100 (below both
floors) for `cust1` in `bank1`. -/
theorem claim_C10_unvalidated_balance_witness :
    (∃ a, (bank1.create_account "123456789" "savings" (-100) ⟨none, none⟩ "s2").1 = some a ∧
        a.balance = -100 ∧
        alistGet (bank1.create_account "123456789" "savings" (-100) ⟨none, none⟩ "s2").2.accounts
          "s2" = some a) ∧
    (∃ a, (bank1.create_account "123456789" "current" (-100) ⟨none, none⟩ "s2").1 = some a ∧
        a.balance = -100 ∧
        alistGet (bank1.create_account "123456789" "current" (-100) ⟨none, none⟩ "s2").2.accounts
          "s2" = some a) :=
  claim_C10_unvalidated_balance bank1 "123456789" "s2" (-100) ⟨none, none⟩ cust1
    (by with_unfolding_all decide)

/-! ### Claim C6 -/

/-- C6: `add_customer` fails iff the id is not exactly 9 digit characters
or a customer with that id already exists; on success the customer is
inserted into the customer map, nothing else changes in memory, and the
state is committed to the files. -/
theorem claim_C6_add_customer (b : Bank) (cust : Customer) :
    ((b.add_customer cust).1 = false ↔
      alistHas b.customers cust.customer_id = true ∨
        ¬(cust.customer_id.length = 9 ∧ strIsdigit cust.customer_id = true)) ∧
    ((b.add_customer cust).1 = false → (b.add_customer cust).2 = b) ∧
    ((b.add_customer cust).1 = true →
      (b.add_customer cust).2.customers = alistInsert b.customers cust.customer_id cust ∧
      (b.add_customer cust).2.accounts = b.accounts ∧
      (b.add_customer cust).2.transaction_history = b.transaction_history ∧
      (b.add_customer cust).2.files = (b.add_customer cust).2.save_image) := by
  unfold Bank.add_customer
  by_cases h1 : alistHas b.customers cust.customer_id = true
  · simp [h1]
  · by_cases h2 : cust.customer_id.length ≠ 9 ∨ strIsdigit cust.customer_id = false
    · rw [if_neg h1, if_pos h2]
      refine ⟨?_, fun _ => rfl, fun ht => by simp at ht⟩
      simp only [eq_self_iff_true, true_iff]
      right
      rcases h2 with h2 | h2
      · exact fun hc => h2 hc.1
      · exact fun hc => by rw [hc.2] at h2; exact Bool.noConfusion h2
    · rw [if_neg h1, if_neg h2]
      push_neg at h2
      refine ⟨?_, fun hf => by simp at hf, fun _ => ⟨rfl, rfl, rfl, rfl⟩⟩
      simp only [Bool.true_eq_false, false_iff]
      rintro (hc | hc)
      · exact h1 hc
      · exact hc ⟨h2.1, by simpa using h2.2⟩

/-- Witness for C6: adding `cust1` to the empty first-run bank succeeds and
inserts it. -/
theorem claim_C6_add_customer_witness :
    (bank0.add_customer cust1).1 = true ∧
    (bank0.add_customer cust1).2.customers = alistInsert bank0.customers "123456789" cust1 := by
  have h := claim_C6_add_customer bank0 cust1
  have ht : (bank0.add_customer cust1).1 = true := by with_unfolding_all decide
  exact ⟨ht, (h.2.2 ht).1⟩

/-! ### Claim C7 -/

/-- C7: `remove_customer` fails iff the customer does not exist or owns at
least one account; and adding a fresh valid customer with zero accounts and
immediately removing it leaves the customer collection unchanged. -/
theorem claim_C7_remove_customer (b : Bank) (cid : String) (cust : Customer) :
    ((b.remove_customer cid).1 = false ↔
      alistGet b.customers cid = none ∨
        ∃ c, alistGet b.customers cid = some c ∧ c.account_numbers ≠ []) ∧
    (cust.customer_id.length = 9 → strIsdigit cust.customer_id = true →
      alistGet b.customers cust.customer_id = none →
      cust.account_numbers = [] →
      ((b.add_customer cust).2.remove_customer cust.customer_id).2.customers = b.customers) := by
  constructor
  · unfold Bank.remove_customer
    cases hget : alistGet b.customers cid with
    | none => simp [hget]
    | some c =>
        by_cases hne : c.account_numbers = []
        · simp [hget, hne]
        · simp [hget, hne]
  · intro hid hdig hnone hempty
    have hhas : alistHas b.customers cust.customer_id = false := by
      simp [alistHas, hnone]
    have hins : alistInsert b.customers cust.customer_id cust =
        b.customers ++ [(cust.customer_id, cust)] :=
      alistInsert_of_get_none _ _ _ hnone
    have hb2 : (b.add_customer cust).2 =
        ({ b with customers := b.customers ++ [(cust.customer_id, cust)] } : Bank).save_data := by
      simp [Bank.add_customer, hhas, hid, hdig, hins]
    have hget2 : alistGet (b.customers ++ [(cust.customer_id, cust)]) cust.customer_id =
        some cust := by
      rw [alistGet_append_none _ _ _ hnone]
      simp [alistGet]
    rw [hb2]
    simp [Bank.remove_customer, Bank.save_data, hget2, hempty,
      alistErase_append_of_none _ _ _ hnone]

/-- Witness for C7: removing a missing customer from the first-run bank
fails, and add-then-remove of `cust1` restores the empty collection. -/
theorem claim_C7_remove_customer_witness :
    ((bank0.remove_customer "123456789").1 = false) ∧
    ((bank0.add_customer cust1).2.remove_customer "123456789").2.customers = bank0.customers := by
  have h := claim_C7_remove_customer bank0 "123456789" cust1
  constructor
  · exact h.1.mpr (Or.inl (by with_unfolding_all decide))
  · exact h.2 (by with_unfolding_all decide) (by with_unfolding_all decide)
      (by with_unfolding_all decide) (by with_unfolding_all decide)

/-! ### Claim C8 -/

/-- C8: `apply_all_interest` multiplies every savings balance by
(1 + interest rate), leaves every current account untouched, appends exactly
one interest record regardless of the number of savings accounts (including
zero), leaves the customers unchanged and commits. -/
theorem claim_C8_apply_all_interest (b : Bank) (ts : String) :
    (∀ k a, alistGet b.accounts k = some a →
      alistGet (b.apply_all_interest ts).accounts k =
        some (match a.variant with
          | .savings r => { a with balance := a.balance * (1 + r) }
          | .current _ => a)) ∧
    (b.apply_all_interest ts).transaction_history =
      b.transaction_history ++ [.apply_interest ts] ∧
    (b.apply_all_interest ts).customers = b.customers ∧
    (b.apply_all_interest ts).files = (b.apply_all_interest ts).save_image := by
  refine ⟨?_, rfl, rfl, rfl⟩
  intro k a hget
  show alistGet (b.accounts.map (fun p => (p.1, p.2.apply_interest))) k = _
  rw [alistGet_map_val, hget]
  obtain ⟨n, hid, bal, v⟩ := a
  rcases v with r | od
  · simp only [Option.map_some', Account.apply_interest, Option.some.injEq,
      Account.mk.injEq, true_and, and_true]
    ring
  · simp [Option.map_some', Account.apply_interest]

/-- Witness for C8 on `bank3` (one savings account, balance 150, rate 1/20). -/
theorem claim_C8_apply_all_interest_witness :
    alistGet (bank3.apply_all_interest "t9").accounts "acc00001" =
      some { account_number := "acc00001", account_holder_id := "123456789",
             balance := 150 * (1 + 1/20), variant := .savings (1/20) } ∧
    (bank3.apply_all_interest "t9").transaction_history =
      bank3.transaction_history ++ [.apply_interest "t9"] := by
  have h := claim_C8_apply_all_interest bank3 "t9"
  refine ⟨?_, h.2.1⟩
  have hget : alistGet bank3.accounts "acc00001" =
      some { account_number := "acc00001", account_holder_id := "123456789",
             balance := 150, variant := .savings (1/20) } := by
    with_unfolding_all decide
  exact h.1 "acc00001" _ hget

/-! ### Claim C9 -/

/-- C9 (implicit): a self-transfer of a positive, withdrawable amount
succeeds, leaves the account's stored value exactly unchanged, and still
appends one transfer record: the withdrawal and the deposit hit the same
dict entry. -/
theorem claim_C9_self_transfer (b : Bank) (a : String) (acc : Account) (amt : Rat)
    (ts : String) (hget : alistGet b.accounts a = some acc) (hpos : 0 < amt)
    (hw : (acc.withdraw amt).1 = true) :
    (b.transfer_funds a a amt ts).1 = true ∧
    alistGet (b.transfer_funds a a amt ts).2.accounts a = some acc ∧
    (b.transfer_funds a a amt ts).2.transaction_history =
      b.transaction_history ++ [.transfer a a amt ts] := by
  have hw2 := Account.withdraw_of_true acc amt hw
  have hnle : ¬ amt ≤ 0 := not_le.mpr hpos
  have hd := Account.deposit_of_pos ({ acc with balance := acc.balance - amt }) amt hpos
  have ht : b.transfer_funds a a amt ts =
      (true, ({ b with
        accounts := alistInsert (alistInsert b.accounts a
          { acc with balance := acc.balance - amt }) a
          { acc with balance := acc.balance - amt + amt },
        transaction_history := b.transaction_history ++
          [.transfer a a amt ts] } : Bank).save_data) := by
    simp only [Bank.transfer_funds, hget]
    rw [if_neg hnle]
    simp only [hw, if_true, hw2, alistGet_insert_self, Option.getD_some, hd]
  rw [ht]
  refine ⟨rfl, ?_, rfl⟩
  show alistGet (alistInsert (alistInsert b.accounts a _) a _) a = some acc
  rw [alistGet_insert_self]
  congr 1
  have : acc.balance - amt + amt = acc.balance := by ring
  rw [this]

/-- Witness for C9: self-transfer of 40 on `bank3`'s account (balance 150). -/
theorem claim_C9_self_transfer_witness :
    (bank3.transfer_funds "acc00001" "acc00001" 40 "t3").1 = true ∧
    alistGet (bank3.transfer_funds "acc00001" "acc00001" 40 "t3").2.accounts "acc00001" =
      some { account_number := "acc00001", account_holder_id := "123456789",
             balance := 150, variant := .savings (1/20) } ∧
    (bank3.transfer_funds "acc00001" "acc00001" 40 "t3").2.transaction_history =
      bank3.transaction_history ++ [.transfer "acc00001" "acc00001" 40 "t3"] :=
  claim_C9_self_transfer bank3 "acc00001"
    { account_number := "acc00001", account_holder_id := "123456789",
      balance := 150, variant := .savings (1/20) } 40 "t3"
    (by with_unfolding_all decide) (by with_unfolding_all decide)
    (by with_unfolding_all decide)

/-- C2 counterexample: with the pair a = b = `acc00001` (balance 150) and
amount 50, the transfer succeeds and appends a record, yet the balance does
not change by -50 (it stays 150): neither disjunct of the claim holds for
this pair, so the stated dichotomy fails for equal ids. -/
theorem claim_C2_counterexample :
    (bank3.transfer_funds "acc00001" "acc00001" 50 "t2").1 = true ∧
    (alistGet (bank3.transfer_funds "acc00001" "acc00001" 50 "t2").2.accounts
      "acc00001").map Account.balance = some 150 ∧
    ¬ ((150 : Rat) = 150 - 50) ∧
    (bank3.transfer_funds "acc00001" "acc00001" 50 "t2").2.transaction_history ≠
      bank3.transaction_history := by
  refine ⟨?_, ?_, ?_, ?_⟩ <;> with_unfolding_all decide

/-! ### Claim C2 (amended: distinct accounts) -/

/-- C2 (amended): for two distinct account ids, `transfer_funds` either
succeeds, moving exactly `amt` from the source to the destination and
appending exactly one transfer record (all other accounts and the customer
map untouched), or fails leaving the whole state exactly as before.
(For equal ids a successful self-transfer leaves the balance unchanged yet
appends a record, so the dichotomy as stated requires distinctness.) -/
theorem claim_C2_transfer_atomic (b : Bank) (a c : String) (amt : Rat) (ts : String)
    (hne : a ≠ c) :
    ((b.transfer_funds a c amt ts).1 = true ∧
      (∃ accA accC, alistGet b.accounts a = some accA ∧
        alistGet b.accounts c = some accC ∧
        alistGet (b.transfer_funds a c amt ts).2.accounts a =
          some { accA with balance := accA.balance - amt } ∧
        alistGet (b.transfer_funds a c amt ts).2.accounts c =
          some { accC with balance := accC.balance + amt } ∧
        (∀ k, k ≠ a → k ≠ c →
          alistGet (b.transfer_funds a c amt ts).2.accounts k = alistGet b.accounts k) ∧
        (b.transfer_funds a c amt ts).2.customers = b.customers ∧
        (b.transfer_funds a c amt ts).2.transaction_history =
          b.transaction_history ++ [.transfer a c amt ts])) ∨
    ((b.transfer_funds a c amt ts).1 = false ∧ (b.transfer_funds a c amt ts).2 = b) := by
  cases hA : alistGet b.accounts a with
  | none =>
      right
      cases hC : alistGet b.accounts c <;> constructor <;>
        simp [Bank.transfer_funds, hA, hC]
  | some accA =>
      cases hC : alistGet b.accounts c with
      | none =>
          right
          constructor <;> simp [Bank.transfer_funds, hA, hC]
      | some accC =>
          by_cases hle : amt ≤ 0
          · right
            constructor <;> simp [Bank.transfer_funds, hA, hC, hle]
          · have hpos : 0 < amt := not_le.mp hle
            cases hwres : (accA.withdraw amt).1 with
            | false =>
                right
                have hw2 := Account.withdraw_of_false accA amt hwres
                constructor <;> simp [Bank.transfer_funds, hA, hC, hle, hwres]
            | true =>
                left
                have hw2 := Account.withdraw_of_true accA amt hwres
                have hd := Account.deposit_of_pos accC amt hpos
                have ht : b.transfer_funds a c amt ts =
                    (true, ({ b with
                      accounts := alistInsert (alistInsert b.accounts a
                        { accA with balance := accA.balance - amt }) c
                        { accC with balance := accC.balance + amt },
                      transaction_history := b.transaction_history ++
                        [.transfer a c amt ts] } : Bank).save_data) := by
                  simp only [Bank.transfer_funds, hA, hC]
                  rw [if_neg hle]
                  simp only [hwres, if_true, hw2,
                    alistGet_insert_ne _ _ _ _ (Ne.symm hne), hC,
                    Option.getD_some, hd]
                rw [ht]
                refine ⟨rfl, accA, accC, rfl, rfl, ?_, ?_, ?_, rfl, rfl⟩
                · show alistGet (alistInsert (alistInsert b.accounts a _) c _) a = _
                  rw [alistGet_insert_ne _ _ _ _ hne, alistGet_insert_self]
                · show alistGet (alistInsert (alistInsert b.accounts a _) c _) c = _
                  rw [alistGet_insert_self]
                · intro k hka hkc
                  show alistGet (alistInsert (alistInsert b.accounts a _) c _) k = _
                  rw [alistGet_insert_ne _ _ _ _ hkc, alistGet_insert_ne _ _ _ _ hka]

/-- Witness for C2 at distinct accounts: `bank4c` holds a second (current)
account `acc00002`; transferring 60 from `acc00001` (balance 150) to it
matches the success branch of the dichotomy. -/
theorem claim_C2_transfer_atomic_witness :
    ((bank3.transfer_funds "acc00001" "missing" 60 "t4").1 = false ∧
      (bank3.transfer_funds "acc00001" "missing" 60 "t4").2 = bank3) := by
  have h := claim_C2_transfer_atomic bank3 "acc00001" "missing" 60 "t4"
    (by with_unfolding_all decide)
  rcases h with ⟨h1, accA, accC, hA, hC, _⟩ | h
  · have hm : alistGet bank3.accounts "missing" = none := by with_unfolding_all decide
    rw [hm] at hC
    exact Option.noConfusion hC
  · exact h

/-! ### Claim C5 (amended: no collision check) -/

/-- C5 counterexample: in `bank3` the id `acc00001` is already present,
yet `create_account` handed that very value by the id generator still
succeeds and silently overwrites the stored savings account (balance 150)
with the new current account (balance 7); the account map does not grow.
So the generated id is not checked against the existing map and is not
distinct from the ids already present. -/
theorem claim_C5_counterexample :
    alistHas bank3.accounts "acc00001" = true ∧
    (bank3.create_account "123456789" "current" 7 ⟨none, some 3⟩ "acc00001").1.isSome = true ∧
    (bank3.create_account "123456789" "current" 7 ⟨none, some 3⟩ "acc00001").2.accounts.length =
      bank3.accounts.length ∧
    alistGet (bank3.create_account "123456789" "current" 7 ⟨none, some 3⟩ "acc00001").2.accounts
      "acc00001" = some (CurrentAccount.init "acc00001" "123456789" 7 3) := by
  refine ⟨?_, ?_, ?_, ?_⟩ <;> with_unfolding_all decide

/-- C5 (amended): `create_account` uses the truncated-uuid value directly,
with no collision check; whenever the produced value is not already a key
of the account map, the created account's id is distinct from every
existing id and the account is appended to the map. -/
theorem claim_C5_fresh_id (b : Bank) (cid num t : String) (bal : Rat) (kw : Kwargs)
    (cust : Customer) (h : alistGet b.customers cid = some cust)
    (hfresh : alistGet b.accounts num = none)
    (ht : t = "savings" ∨ t = "current") :
    ∃ a, (b.create_account cid t bal kw num).1 = some a ∧
      a.account_number = num ∧
      alistGet b.accounts a.account_number = none ∧
      (b.create_account cid t bal kw num).2.accounts = b.accounts ++ [(num, a)] := by
  rcases ht with ht | ht <;> subst ht
  · refine ⟨SavingsAccount.init num cid bal (kw.interest_rate.getD (1/100)),
      ?_, rfl, hfresh, ?_⟩ <;>
      simp [Bank.create_account, h, Bank.save_data, alistInsert_of_get_none _ _ _ hfresh]
  · refine ⟨CurrentAccount.init num cid bal (kw.overdraft_limit.getD 0),
      ?_, rfl, hfresh, ?_⟩ <;>
      simp [Bank.create_account, h, Bank.save_data, alistInsert_of_get_none _ _ _ hfresh]

/-- Witness for the amended C5: creating a savings account under the unused
id `s9` in `bank3`. -/
theorem claim_C5_fresh_id_witness :
    ∃ a, (bank3.create_account "123456789" "savings" 1 ⟨none, none⟩ "s9").1 = some a ∧
      a.account_number = "s9" ∧
      alistGet bank3.accounts a.account_number = none ∧
      (bank3.create_account "123456789" "savings" 1 ⟨none, none⟩ "s9").2.accounts =
        bank3.accounts ++ [("s9", a)] :=
  claim_C5_fresh_id bank3 "123456789" "s9" "savings" 1 ⟨none, none⟩
    { customer_id := "123456789", name := "A", address := "X",
      account_numbers := ["acc00001"] }
    (by with_unfolding_all decide) (by with_unfolding_all decide) (Or.inl rfl)

/-! ### Load/save lemmas for Claim C1 -/

theorem foldl_congr_mem {α β : Type} (l : List α) (f g : β → α → β) (a : β)
    (h : ∀ b x, x ∈ l → f b x = g b x) : l.foldl f a = l.foldl g a := by
  induction l generalizing a with
  | nil => rfl
  | cons x xs ih =>
      rw [List.foldl_cons, List.foldl_cons, h a x (by simp)]
      exact ih _ (fun b y hy => h b y (by simp [hy]))

theorem foldl_insert_fresh {α : Type} (l acc : List (String × α))
    (hfresh : ∀ p ∈ l, alistGet acc p.1 = none)
    (hnodup : (l.map Prod.fst).Nodup) :
    l.foldl (fun m p => alistInsert m p.1 p.2) acc = acc ++ l := by
  induction l generalizing acc with
  | nil => simp
  | cons p ps ih =>
      obtain ⟨k, v⟩ := p
      rw [List.map_cons, List.nodup_cons] at hnodup
      rw [List.foldl_cons]
      rw [show alistInsert acc k v = acc ++ [(k, v)] from
        alistInsert_of_get_none _ _ _ (hfresh (k, v) (by simp))]
      rw [ih (acc ++ [(k, v)]) ?fr hnodup.2]
      · simp
      case fr =>
        intro q hq
        rw [alistGet_append_none _ _ _ (hfresh q (by simp [hq]))]
        have hqk : ¬ (k = q.1) := by
          intro hk
          exact hnodup.1 (by rw [hk]; exact List.mem_map.mpr ⟨q, hq, rfl⟩)
        simp [alistGet, hqk]

theorem loadAccount_to_dict (a : Account)
    (h : 0 ≤ match a.variant with | .savings r => r | .current od => od) :
    loadAccount a.to_dict = a := by
  obtain ⟨n, hid, bal, v⟩ := a
  rcases v with r | od <;>
    simp_all [loadAccount, Account.to_dict, SavingsAccount.init, CurrentAccount.init,
      ge_iff_le]

theorem foldl_add_account_number (l : List String) (c : Customer)
    (hdisj : ∀ n ∈ l, n ∉ c.account_numbers) (hnodup : l.Nodup) :
    l.foldl (fun cc n => cc.add_account_number n) c =
      { c with account_numbers := c.account_numbers ++ l } := by
  induction l generalizing c with
  | nil => simp
  | cons x xs ih =>
      rw [List.nodup_cons] at hnodup
      rw [List.foldl_cons]
      rw [show c.add_account_number x =
          { c with account_numbers := c.account_numbers ++ [x] } from by
        simp [Customer.add_account_number, hdisj x (by simp)]]
      rw [ih _ ?d hnodup.2]
      · simp
      case d =>
        intro n hn
        simp only [List.mem_append, List.mem_singleton]
        rintro (hc | hx)
        · exact hdisj n (by simp [hn]) hc
        · exact hnodup.1 (hx ▸ hn)

theorem loadCustomer_to_dict (c : Customer) (h : c.account_numbers.Nodup) :
    loadCustomer c.to_dict = c := by
  unfold loadCustomer Customer.to_dict
  rw [foldl_add_account_number _ _ (by intro n _ hc; simp at hc) h]
  simp

theorem map_id_of_mem {α : Type} (l : List α) (f : α → α) (h : ∀ x ∈ l, f x = x) :
    l.map f = l := by
  induction l with
  | nil => rfl
  | cons x xs ih => simp [h x (by simp), ih (fun y hy => h y (by simp [hy]))]

theorem filter_id_of_mem {α : Type} (l : List α) (p : α → Bool)
    (h : ∀ x ∈ l, p x = true) : l.filter p = l := by
  induction l with
  | nil => rfl
  | cons x xs ih => simp [List.filter_cons, h x (by simp),
      ih (fun y hy => h y (by simp [hy]))]

/-! ### Claim C1 (amended: the activity log is not loaded back) -/

/-- C1 counterexample: `bank3` is reachable (first-run load, `add_customer`,
`create_account`, `deposit`) and was committed by its last operation, yet
loading its own committed files does not reproduce it: the deposit record
present at commit time is absent after the load, which always starts with
an empty history. -/
theorem claim_C1_counterexample :
    Bank.load bank3.save_image ≠ bank3 ∧
    bank3.transaction_history = [.deposit "acc00001" 50 "t1"] ∧
    (Bank.load bank3.save_image).transaction_history = [] := by
  refine ⟨?_, ?_, ?_⟩ <;> with_unfolding_all decide

/-- C1 (amended): for every structurally well-formed state (all reachable
states are such), loading right after a commit restores the customer and
account collections exactly, but the activity log always comes back empty
— `transactions.json` is written by every commit and never read. -/
theorem claim_C1_load_after_save (b : Bank) (hwf : b.WF) :
    (Bank.load b.save_image).customers = b.customers ∧
    (Bank.load b.save_image).accounts = b.accounts ∧
    (Bank.load b.save_image).transaction_history = [] := by
  obtain ⟨hcnd, hand, hckey, hakey, hcrefs, hparam⟩ := hwf
  have hacc : (b.accounts.map (fun p => p.2.to_dict)).foldl
      (fun m ad => alistInsert m (loadAccount ad).account_number (loadAccount ad)) []
      = b.accounts := by
    rw [List.foldl_map]
    rw [foldl_congr_mem _ _ (fun m p => alistInsert m p.1 p.2) _ ?ha]
    · exact (foldl_insert_fresh b.accounts [] (fun p _ => rfl) hand).trans (by simp)
    case ha =>
      intro m p hp
      show alistInsert m (loadAccount p.2.to_dict).account_number (loadAccount p.2.to_dict)
        = alistInsert m p.1 p.2
      rw [loadAccount_to_dict p.2 (hparam p hp), hakey p hp]
  have hcst : (b.customers.map (fun p => p.2.to_dict)).foldl
      (fun m cd => alistInsert m (loadCustomer cd).customer_id (loadCustomer cd)) []
      = b.customers := by
    rw [List.foldl_map]
    rw [foldl_congr_mem _ _ (fun m p => alistInsert m p.1 p.2) _ ?hc]
    · exact (foldl_insert_fresh b.customers [] (fun p _ => rfl) hcnd).trans (by simp)
    case hc =>
      intro m p hp
      show alistInsert m (loadCustomer p.2.to_dict).customer_id (loadCustomer p.2.to_dict)
        = alistInsert m p.1 p.2
      rw [loadCustomer_to_dict p.2 (hcrefs p hp).1, hckey p hp]
  refine ⟨?_, ?_, rfl⟩
  · show ((b.customers.map (fun p => p.2.to_dict)).foldl
        (fun m cd => alistInsert m (loadCustomer cd).customer_id (loadCustomer cd)) []).map
        (fun p => (p.1, { p.2 with account_numbers :=
          p.2.account_numbers.filter (fun n => alistHas
            ((b.accounts.map (fun q => q.2.to_dict)).foldl
              (fun m ad => alistInsert m (loadAccount ad).account_number (loadAccount ad)) [])
            n) })) = b.customers
    rw [hcst, hacc]
    apply map_id_of_mem
    intro p hp
    rw [filter_id_of_mem _ _ (fun n hn => (hcrefs p hp).2 n hn)]
  · show (b.accounts.map (fun p => p.2.to_dict)).foldl
        (fun m ad => alistInsert m (loadAccount ad).account_number (loadAccount ad)) []
        = b.accounts
    exact hacc

/-- Witness for the amended C1 at the reachable state `bank3`. -/
theorem claim_C1_load_after_save_witness :
    (Bank.load bank3.save_image).customers = bank3.customers ∧
    (Bank.load bank3.save_image).accounts = bank3.accounts ∧
    (Bank.load bank3.save_image).transaction_history = [] :=
  claim_C1_load_after_save bank3 (by with_unfolding_all decide)

end BankSys
